import Mathlib

/-!
Verification of the blogicum blog application (django_sprint4).

The data model follows `blog/models.py`; the request handlers follow
`blog/views.py`; pagination follows the framework paginator used by
`blog/views.py` and `core/utils.py`. Timestamps are modelled as integers,
primary keys as naturals, and the current time is passed explicitly.
-/

namespace Blogicum

/-- A category record (`blog/models.py`, class `Category`). The
`is_published` and `created_at` columns come from the `PublishedModel`
base class in `core/models.py` (not in the sources; the spec's data-model
table documents both fields). -/
structure Category where
  id : Nat
  title : String
  slug : String
  is_published : Bool
  created_at : Int
  deriving DecidableEq, Repr

/-- A user record; only the fields the views touch (identity and
username) are modelled — the user model itself is external
authentication-subsystem code. -/
structure User where
  id : Nat
  username : String
  deriving DecidableEq, Repr

/-- A post record (`blog/models.py`, class `Post`). `author` is a
foreign key to `User` (CASCADE), `category` and `location` are nullable
foreign keys (SET_NULL). -/
structure Post where
  id : Nat
  title : String
  text : String
  pub_date : Int
  is_published : Bool
  author : Nat
  location : Option Nat
  category : Option Nat
  deriving DecidableEq, Repr

/-- A comment record (`blog/models.py`, class `Comment`). `post` is a
foreign key to `Post` with CASCADE delete and related name `comments`;
`author` is a foreign key to `User`. -/
structure Comment where
  id : Nat
  text : String
  post : Nat
  author : Nat
  created_at : Int
  deriving DecidableEq, Repr

/-- The database state: the tables the blog views read and write. -/
structure DB where
  categories : List Category
  users : List User
  posts : List Post
  comments : List Comment
  deriving DecidableEq, Repr

/-- Primary-key lookup on the post table (`get_object_or_404(Post, pk=...)`). -/
def DB.findPost (db : DB) (pid : Nat) : Option Post :=
  db.posts.find? (fun p => p.id == pid)

/-- Primary-key lookup on the comment table (`get_object_or_404(Comment, pk=...)`). -/
def DB.findComment (db : DB) (cid : Nat) : Option Comment :=
  db.comments.find? (fun c => c.id == cid)

/-- Primary-key lookup on the category table (dereferencing the
`post.category` foreign key). -/
def DB.findCategory (db : DB) (cid : Nat) : Option Category :=
  db.categories.find? (fun c => c.id == cid)

/-- Slug lookup on the category table
(`get_object_or_404(Category, slug=category_slug)`). -/
def DB.findCategoryBySlug (db : DB) (slug : String) : Option Category :=
  db.categories.find? (fun c => c.slug == slug)

/-- Username lookup on the user table (`get_object_or_404(User, username=...)`). -/
def DB.findUser (db : DB) (username : String) : Option User :=
  db.users.find? (fun u => u.username == username)

/-- The related comment set of a post (`post.comments`, the reverse side
of `Comment.post` with `related_name='comments'`), in the `Comment.Meta`
ordering `['created_at']` left as stored order here. -/
def DB.commentsOf (db : DB) (pid : Nat) : List Comment :=
  db.comments.filter (fun c => c.post == pid)

/-- `Count('comments')`: the read-time aggregate counting the related
comment rows of a post. -/
def commentCount (db : DB) (pid : Nat) : Nat :=
  (db.commentsOf pid).length

/-- A post together with its `comment_count` annotation, as produced by
`annotate(comment_count=Count('comments'))` in the list views. -/
structure FeedEntry where
  post : Post
  comment_count : Nat
  deriving DecidableEq, Repr

/-- Annotate one post with its comment count. -/
def annotateEntry (db : DB) (p : Post) : FeedEntry :=
  ⟨p, commentCount db p.id⟩

/-- Insert an entry into a list kept in descending `pub_date` order:
the entry goes in front of the first strictly-older entry. -/
def insertDesc (e : FeedEntry) : List FeedEntry → List FeedEntry
  | [] => [e]
  | x :: xs =>
    if x.post.pub_date ≤ e.post.pub_date then e :: x :: xs
    else x :: insertDesc e xs

/-- `order_by('-pub_date')`: sort a feed newest-first. -/
def sortDesc : List FeedEntry → List FeedEntry
  | [] => []
  | x :: xs => insertDesc x (sortDesc xs)

/-- The queryset filter of the home feed (`post_list` in
`blog/views.py`): `category__is_published=True, is_published=True,
pub_date__lte=timezone.now()`. The lookup `category__is_published=True`
joins through the `category` foreign key, so a post whose `category` is
null (or dangling) produces no joined row and is excluded. -/
def publishedFilter (db : DB) (now : Int) (p : Post) : Bool :=
  (match p.category with
   | none => false
   | some cid =>
     match db.findCategory cid with
     | none => false
     | some cat => cat.is_published)
  && p.is_published && decide (p.pub_date ≤ now)

/-- The full ordered, annotated queryset of the home feed (`post_list`):
filter, annotate with `comment_count`, order by `-pub_date`. -/
def post_list_queryset (db : DB) (now : Int) : List FeedEntry :=
  sortDesc ((db.posts.filter (publishedFilter db now)).map (annotateEntry db))

/-- Whether a post appears anywhere in the home feed (on any page of the
paginated queryset). -/
def appearsInHomeFeed (db : DB) (now : Int) (p : Post) : Bool :=
  (post_list_queryset db now).any (fun e => e.post == p)

/- ### Sorting lemmas -/

theorem mem_insertDesc {e x : FeedEntry} {l : List FeedEntry} :
    x ∈ insertDesc e l ↔ x = e ∨ x ∈ l := by
  induction l with
  | nil => simp [insertDesc]
  | cons y ys ih =>
    by_cases h : y.post.pub_date ≤ e.post.pub_date
    · simp [insertDesc, h]
    · simp [insertDesc, h, ih]
      tauto

theorem mem_sortDesc {x : FeedEntry} {l : List FeedEntry} :
    x ∈ sortDesc l ↔ x ∈ l := by
  induction l with
  | nil => simp [sortDesc]
  | cons y ys ih => simp [sortDesc, mem_insertDesc, ih]

/-- Descending `pub_date` order between two feed entries. -/
def newerEq (a b : FeedEntry) : Prop := b.post.pub_date ≤ a.post.pub_date

theorem pairwise_insertDesc {e : FeedEntry} {l : List FeedEntry}
    (hl : l.Pairwise newerEq) : (insertDesc e l).Pairwise newerEq := by
  induction l with
  | nil => simp [insertDesc, List.pairwise_singleton]
  | cons y ys ih =>
    rcases List.pairwise_cons.mp hl with ⟨hy, hys⟩
    by_cases h : y.post.pub_date ≤ e.post.pub_date
    · simp only [insertDesc, if_pos h]
      refine List.pairwise_cons.mpr ⟨?_, hl⟩
      intro z hz
      rcases List.mem_cons.mp hz with rfl | hz
      · exact h
      · exact le_trans (hy z hz) h
    · simp only [insertDesc, if_neg h]
      refine List.pairwise_cons.mpr ⟨?_, ih hys⟩
      intro z hz
      rcases mem_insertDesc.mp hz with rfl | hz
      · exact le_of_lt (lt_of_not_le h)
      · exact hy z hz

theorem pairwise_sortDesc (l : List FeedEntry) :
    (sortDesc l).Pairwise newerEq := by
  induction l with
  | nil => simp [sortDesc]
  | cons y ys ih => exact pairwise_insertDesc ih

/- ### Pagination -/

/-- The `page` query parameter as the framework paginator classifies it:
either absent / not parseable as an integer (`PageNotAnInteger`), or an
integer. The views pass `request.GET.get('page')` straight through. -/
inductive PageParam where
  | missing
  | num (n : Int)
  deriving DecidableEq, Repr

/-- `Paginator.num_pages` with the default `orphans=0`,
`allow_empty_first_page=True`: `ceil(max(1, count) / per_page)`, so an
empty sequence still has one (empty) page. -/
def num_pages (count per_page : Nat) : Nat :=
  (max 1 count + per_page - 1) / per_page

/-- The object list of page `n` (1-based): rows `(n-1)*per_page` up to
`n*per_page`. -/
def pageSlice (l : List α) (per_page n : Nat) : List α :=
  (l.drop ((n - 1) * per_page)).take per_page

/-- `Paginator.get_page`: a valid page number returns that page; a
request that is not an integer returns the first page; an integer out of
range — below 1 as well as above `num_pages` — raises `EmptyPage`
internally and returns the *last* page. -/
def get_page (l : List α) (per_page : Nat) : PageParam → List α
  | .missing => pageSlice l per_page 1
  | .num n =>
    if n < 1 then pageSlice l per_page (num_pages l.length per_page)
    else if (num_pages l.length per_page : Int) < n then
      pageSlice l per_page (num_pages l.length per_page)
    else pageSlice l per_page n.toNat

/- ### Read-path views -/

/-- The home feed view `post_list`: paginate the filtered, annotated,
ordered queryset with `POSTS_ON_PAGE` items per page. -/
def post_list (db : DB) (now : Int) (per_page : Nat) (page : PageParam) :
    List FeedEntry :=
  get_page (post_list_queryset db now) per_page page

/-- Outcome of the single-post detail view. `serverError` is an
unhandled exception propagating as a framework 500 (here: the
`AttributeError` from touching `.is_published` on a null category, or a
dangling foreign key). -/
inductive DetailResult where
  | rendered (post : Post) (comments : List Comment)
  | notFound
  | serverError
  deriving DecidableEq, Repr

/-- The `post_detail` view. The viewer is `none` for an anonymous
request. Python evaluation order of
`post.author != request.user and (post.is_published is False or
post.category.is_published is False or post.pub_date > timezone.now())`
is kept: the author check short-circuits first, then each disjunct in
turn; `post.category.is_published` on a post with no category raises
`AttributeError`. -/
def post_detail (db : DB) (now : Int) (viewer : Option Nat) (post_id : Nat) :
    DetailResult :=
  match db.findPost post_id with
  | none => .notFound
  | some post =>
    if some post.author = viewer then
      .rendered post (db.commentsOf post.id)
    else if post.is_published = false then
      .notFound
    else
      match post.category with
      | none => .serverError
      | some cid =>
        match db.findCategory cid with
        | none => .serverError
        | some cat =>
          if cat.is_published = false then .notFound
          else if now < post.pub_date then .notFound
          else .rendered post (db.commentsOf post.id)

/-- Outcome of a view that may 404 before rendering a paginated feed. -/
inductive FeedResult where
  | page (entries : List FeedEntry)
  | notFound
  deriving DecidableEq, Repr

/-- The `profile` view: resolve the user by username (404 if missing);
the owner (`username == request.user.username`) gets their full post set,
anyone else the published-filtered set; both ordered by `-pub_date`,
annotated with `comment_count`, and paginated. The viewer's username is
the empty string for an anonymous request. -/
def profile (db : DB) (now : Int) (viewerUsername : String)
    (username : String) (per_page : Nat) (page : PageParam) : FeedResult :=
  match db.findUser username with
  | none => .notFound
  | some prof =>
    if username = viewerUsername then
      .page (get_page
        (sortDesc ((db.posts.filter (fun p => p.author == prof.id)).map
          (annotateEntry db)))
        per_page page)
    else
      .page (get_page
        (sortDesc ((db.posts.filter (fun p =>
          p.author == prof.id && publishedFilter db now p)).map
          (annotateEntry db)))
        per_page page)

/-- The per-category post filter of `CategoryDetailView.get_context_data`:
`is_published=True, pub_date__lte=timezone.now()` on the category's
related posts (no category-published condition — the view already
checked the category itself). -/
def categoryPostFilter (now : Int) (p : Post) : Bool :=
  p.is_published && decide (p.pub_date ≤ now)

/-- The category feed view logic (`CategoryDetailView` in
`blog/views.py`): resolve the category by slug (404 if missing), 404 if
it is unpublished, otherwise render its filtered, annotated,
`-pub_date`-ordered, paginated posts. -/
def category_posts (db : DB) (now : Int) (slug : String) (per_page : Nat)
    (page : PageParam) : FeedResult :=
  match db.findCategoryBySlug slug with
  | none => .notFound
  | some cat =>
    if cat.is_published = false then .notFound
    else
      .page (get_page
        (sortDesc ((db.posts.filter (fun p =>
          p.category == some cat.id && categoryPostFilter now p)).map
          (annotateEntry db)))
        per_page page)

/- ### Write-path views -/

/-- Outcome of the dispatch stage of an update/delete view: the
soft-denial redirect to `blog:post_detail` (carrying the `post_id` URL
kwarg it was built from), proceeding into the generic view's own
handling, or 404 from `get_object_or_404`. -/
inductive WriteResult where
  | redirected (post_id : Nat)
  | proceeded
  | notFound
  deriving DecidableEq, Repr

/-- Delete a post row: the database CASCADEs the delete to the comments
whose `post` foreign key references it (`Comment.post,
on_delete=models.CASCADE`). -/
def deletePost (db : DB) (pid : Nat) : DB :=
  { db with
    posts := db.posts.filter (fun p => p.id != pid),
    comments := db.comments.filter (fun c => c.post != pid) }

/-- Delete a comment row. -/
def deleteComment (db : DB) (cid : Nat) : DB :=
  { db with comments := db.comments.filter (fun c => c.id != cid) }

/-- Delete a category row: `Post.category` is declared
`on_delete=models.SET_NULL, null=True`, so every post referencing the
category keeps its row with the reference set to null. -/
def deleteCategory (db : DB) (cid : Nat) : DB :=
  { db with
    categories := db.categories.filter (fun c => c.id != cid),
    posts := db.posts.map (fun p =>
      if p.category == some cid then { p with category := none } else p) }

/-- `PostUpdateView.dispatch` plus the update itself: fetch the post by
`post_id` (404 if absent); a non-author is redirected to the post's
detail page with the database untouched; the author's edit `f` is
applied to the row. -/
def postUpdate (db : DB) (user : Nat) (post_id : Nat) (f : Post → Post) :
    WriteResult × DB :=
  match db.findPost post_id with
  | none => (.notFound, db)
  | some inst =>
    if inst.author != user then (.redirected post_id, db)
    else (.proceeded,
      { db with posts := db.posts.map (fun p =>
          if p.id == post_id then f p else p) })

/-- `PostDeleteView.dispatch` plus the delete itself. -/
def postDelete (db : DB) (user : Nat) (post_id : Nat) : WriteResult × DB :=
  match db.findPost post_id with
  | none => (.notFound, db)
  | some inst =>
    if inst.author != user then (.redirected post_id, db)
    else (.proceeded, deletePost db post_id)

/-- `CommentUpdateView.dispatch` plus the update itself: the comment is
fetched by `comment_id` alone; the `post_id` URL kwarg is only used to
build the denial redirect and the success URL, never compared with the
comment's own `post`. -/
def commentUpdate (db : DB) (user : Nat) (url_post_id : Nat)
    (comment_id : Nat) (f : Comment → Comment) : WriteResult × DB :=
  match db.findComment comment_id with
  | none => (.notFound, db)
  | some inst =>
    if inst.author != user then (.redirected url_post_id, db)
    else (.proceeded,
      { db with comments := db.comments.map (fun c =>
          if c.id == comment_id then f c else c) })

/-- `CommentDeleteView.dispatch` plus the delete itself; like
`commentUpdate`, the comment is resolved by `comment_id` alone. -/
def commentDelete (db : DB) (user : Nat) (url_post_id : Nat)
    (comment_id : Nat) : WriteResult × DB :=
  match db.findComment comment_id with
  | none => (.notFound, db)
  | some inst =>
    if inst.author != user then (.redirected url_post_id, db)
    else (.proceeded, deleteComment db comment_id)

/-- Outcome of `CommentCreateView` for an authenticated user. -/
inductive CreateResult where
  | created
  | notFound
  deriving DecidableEq, Repr

/-- `CommentCreateView` (login required, so `user` is an authenticated
identity): `form_valid` stamps `author` from the request user and
resolves `post` with `get_object_or_404(Post, id=post_id)` — the post's
publish flags, category state and `pub_date` are never consulted. -/
def commentCreate (db : DB) (user : Nat) (post_id : Nat) (text : String)
    (newId : Nat) (now : Int) : CreateResult × DB :=
  match db.findPost post_id with
  | none => (.notFound, db)
  | some _ =>
    (.created,
      { db with comments := db.comments ++ [⟨newId, text, post_id, user, now⟩] })

/- ### URL configuration -/

/-- The view callables defined in `blog/views.py`, in source order. -/
def blogViewsDefined : List String :=
  ["post_list", "post_detail", "PostCreatView", "PostUpdateView",
   "PostDeleteView", "CommentCreateView", "CommentUpdateView",
   "CommentDeleteView", "profile", "ProfileUpdateView",
   "CategoryDetailView"]

/-- The attribute of `blog.views` that `blog/urls.py` binds the
`category/<slug:category_slug>/` route (name `category_posts`) to. -/
def categoryRouteTarget : String := "CategoryListView"

/- ### The spec's visibility predicate -/

/-- Modelled from the spec (section 4.1), for comparison with the
handlers' own logic: a post is visible when it is published, its
category (if any) is published — a post with no category passes this
clause — and its publication date has been reached. -/
def visibleSpec (db : DB) (now : Int) (p : Post) : Bool :=
  p.is_published &&
  (match p.category with
   | none => true
   | some cid =>
     match db.findCategory cid with
     | none => false
     | some cat => cat.is_published) &&
  decide (p.pub_date ≤ now)

/- ### General lemmas about the queryset pipeline -/

theorem mem_annotated_sorted {db : DB} {f : Post → Bool} {e : FeedEntry} :
    e ∈ sortDesc ((db.posts.filter f).map (annotateEntry db)) ↔
      e.post ∈ db.posts ∧ f e.post = true ∧
        e.comment_count = commentCount db e.post.id := by
  rw [mem_sortDesc, List.mem_map]
  constructor
  · rintro ⟨p, hp, rfl⟩
    rcases List.mem_filter.mp hp with ⟨hmem, hf⟩
    exact ⟨hmem, hf, rfl⟩
  · rintro ⟨hmem, hf, hc⟩
    refine ⟨e.post, List.mem_filter.mpr ⟨hmem, hf⟩, ?_⟩
    cases e with
    | mk p c => simp only at hc; simp [annotateEntry, hc]

theorem mem_of_mem_pageSlice {α : Type} {l : List α} {pp n : Nat} {x : α}
    (h : x ∈ pageSlice l pp n) : x ∈ l :=
  List.mem_of_mem_drop (List.mem_of_mem_take h)

theorem mem_of_mem_get_page {α : Type} {l : List α} {pp : Nat}
    {pg : PageParam} {x : α} (h : x ∈ get_page l pp pg) : x ∈ l := by
  cases pg with
  | missing => exact mem_of_mem_pageSlice h
  | num n =>
    simp only [get_page] at h
    split at h
    · exact mem_of_mem_pageSlice h
    · split at h
      · exact mem_of_mem_pageSlice h
      · exact mem_of_mem_pageSlice h

theorem pairwise_pageSlice {α : Type} {R : α → α → Prop} {l : List α}
    (pp n : Nat) (h : l.Pairwise R) : (pageSlice l pp n).Pairwise R :=
  h.sublist ((List.take_sublist _ _).trans (List.drop_sublist _ _))

theorem pairwise_get_page {α : Type} {R : α → α → Prop} {l : List α}
    (pp : Nat) (pg : PageParam) (h : l.Pairwise R) :
    (get_page l pp pg).Pairwise R := by
  cases pg with
  | missing => exact pairwise_pageSlice _ _ h
  | num n =>
    simp only [get_page]
    split
    · exact pairwise_pageSlice _ _ h
    · split
      · exact pairwise_pageSlice _ _ h
      · exact pairwise_pageSlice _ _ h

/- ### Concrete fixtures used by witnesses and counterexamples -/

/-- A published category. -/
def catNews : Category := ⟨7, "News", "news", true, 0⟩

/-- The user `alice` (id 1). -/
def uAlice : User := ⟨1, "alice"⟩

/-- The user `bob` (id 2). -/
def uBob : User := ⟨2, "bob"⟩

/-- A published post by alice with no category, future-dated
(`pub_date = 3`). -/
def pNoCat : Post := ⟨1, "uncategorized", "body", 3, true, 1, none, none⟩

/-- A published post by alice in the published category, already
published (`pub_date = 0`). -/
def pCat : Post := ⟨2, "in category", "body", 0, true, 1, none, some 7⟩

/-- A comment by alice on `pCat`. -/
def cOnPCat : Comment := ⟨1, "nice", 2, 1, 0⟩

/-- The example database. -/
def dbEx : DB := ⟨[catNews], [uAlice, uBob], [pNoCat, pCat], [cOnPCat]⟩

/- ### C1: home-feed membership -/

theorem publishedFilter_iff {db : DB} {now : Int} {p : Post} :
    publishedFilter db now p = true ↔
      p.is_published = true ∧
      (∃ cid cat, p.category = some cid ∧ db.findCategory cid = some cat ∧
        cat.is_published = true) ∧
      p.pub_date ≤ now := by
  unfold publishedFilter
  cases hc : p.category with
  | none => simp
  | some cid =>
    cases hf : db.findCategory cid with
    | none => simp [hf]
    | some cat =>
      simp [hf, Bool.and_eq_true, decide_eq_true_eq]
      tauto

/-- C1, corrected: a post appears in the home feed iff it is published,
its publication date has been reached, and it has a category that exists
and is itself published. The claim's allowance for posts with no
category fails: `filter(category__is_published=True)` joins through the
category foreign key, so a post whose category is null never appears. -/
theorem C1_home_feed_membership (db : DB) (now : Int) (p : Post)
    (hp : p ∈ db.posts) :
    appearsInHomeFeed db now p = true ↔
      p.is_published = true ∧
      (∃ cid cat, p.category = some cid ∧ db.findCategory cid = some cat ∧
        cat.is_published = true) ∧
      p.pub_date ≤ now := by
  rw [← publishedFilter_iff]
  unfold appearsInHomeFeed post_list_queryset
  rw [List.any_eq_true]
  constructor
  · rintro ⟨e, he, hbe⟩
    have hep : e.post = p := by simpa using hbe
    rcases mem_annotated_sorted.mp he with ⟨_, hf2, _⟩
    rwa [hep] at hf2
  · intro hf2
    exact ⟨annotateEntry db p, mem_annotated_sorted.mpr ⟨hp, hf2, rfl⟩,
      by simp [annotateEntry]⟩

/-- C1 witness: the corrected statement instantiated on the example
database at a post that does satisfy the filter. -/
theorem C1_home_feed_membership_witness :
    appearsInHomeFeed dbEx 5 pCat = true ↔
      pCat.is_published = true ∧
      (∃ cid cat, pCat.category = some cid ∧ dbEx.findCategory cid = some cat ∧
        cat.is_published = true) ∧
      pCat.pub_date ≤ 5 :=
  C1_home_feed_membership dbEx 5 pCat (by decide)

/-- C1 counterexample: `pNoCat` is a stored, published post with no
category whose publication date has passed, so the claim as stated says
it appears in the home feed; it does not. -/
theorem C1_home_feed_membership_cex :
    pNoCat ∈ dbEx.posts ∧ pNoCat.is_published = true ∧
    pNoCat.category = none ∧ pNoCat.pub_date ≤ (5 : Int) ∧
    appearsInHomeFeed dbEx 5 pNoCat = false := by decide

/- ### C2: post-detail access control -/

/-- C2, corrected: the detail view always renders for the post's author,
and returns not-found for a non-author when the post is not visible —
provided the post is unpublished or actually has a (stored) category.
The remaining case the claim covered, a published but future-dated post
with no category viewed by a non-author, does not produce not-found: the
handler evaluates `post.category.is_published` on a null category and
raises instead (see the counterexample). -/
theorem C2_post_detail_access :
    (∀ (db : DB) (now : Int) (viewer : Option Nat) (pid : Nat) (p : Post),
      db.findPost pid = some p → viewer = some p.author →
      post_detail db now viewer pid = .rendered p (db.commentsOf p.id)) ∧
    (∀ (db : DB) (now : Int) (viewer : Option Nat) (pid : Nat) (p : Post),
      db.findPost pid = some p → viewer ≠ some p.author →
      visibleSpec db now p = false →
      (p.is_published = false ∨
        ∃ cid cat, p.category = some cid ∧ db.findCategory cid = some cat) →
      post_detail db now viewer pid = .notFound) := by
  constructor
  · intro db now viewer pid p hp hv
    simp only [post_detail, hp, if_pos hv.symm]
  · intro db now viewer pid p hp hv hinv hside
    have hvne : ¬ (some p.author = viewer) := fun h => hv h.symm
    simp only [post_detail, hp, if_neg hvne]
    rcases hside with hunpub | ⟨cid, cat, hcid, hcat⟩
    · rw [if_pos hunpub]
    · by_cases hpub : p.is_published = false
      · rw [if_pos hpub]
      · have hpub2 : p.is_published = true := by simpa using hpub
        rw [if_neg hpub]
        simp only [hcid, hcat]
        by_cases hcp : cat.is_published = false
        · rw [if_pos hcp]
        · have hcp2 : cat.is_published = true := by simpa using hcp
          rw [if_neg hcp]
          have hdate : now < p.pub_date := by
            unfold visibleSpec at hinv
            simp only [hcid, hcat, hpub2, hcp2, Bool.true_and,
              Bool.and_eq_false_imp] at hinv
            simpa using hinv
          rw [if_pos hdate]

/-- C2 witness: on the example database with current time just before
`pCat.pub_date`, the author still sees the post and a non-author gets
not-found. -/
theorem C2_post_detail_access_witness :
    post_detail dbEx (-1) (some 1) 2 =
      DetailResult.rendered pCat (dbEx.commentsOf pCat.id) ∧
    post_detail dbEx (-1) (some 2) 2 = DetailResult.notFound :=
  ⟨C2_post_detail_access.1 dbEx (-1) (some 1) 2 pCat (by decide) (by decide),
   C2_post_detail_access.2 dbEx (-1) (some 2) 2 pCat (by decide) (by decide)
     (by decide) (Or.inr ⟨7, catNews, by decide, by decide⟩)⟩

/-- C2 counterexample: `pNoCat` is future-dated (hence not visible) and
has no category; a non-author's detail request yields a server error
(the `AttributeError` on `post.category.is_published`), not the
not-found response the claim requires. -/
theorem C2_post_detail_access_cex :
    dbEx.findPost 1 = some pNoCat ∧
    (some 2 : Option Nat) ≠ some pNoCat.author ∧
    visibleSpec dbEx 0 pNoCat = false ∧
    post_detail dbEx 0 (some 2) 1 = DetailResult.serverError := by decide

/- ### C3: ownership guard on update/delete -/

/-- C3: an authenticated non-author's update or delete request on a post
or a comment (addressed by its canonical URL, whose `post_id` is the
comment's own post) is refused with a redirect to the entity's detail
view — the post's detail page — and the database is left unchanged. -/
theorem C3_nonauthor_write_refused :
    (∀ (db : DB) (user pid : Nat) (p : Post) (f : Post → Post),
      db.findPost pid = some p → user ≠ p.author →
      postUpdate db user pid f = (.redirected pid, db) ∧
      postDelete db user pid = (.redirected pid, db)) ∧
    (∀ (db : DB) (user cid : Nat) (c : Comment) (f : Comment → Comment),
      db.findComment cid = some c → user ≠ c.author →
      commentUpdate db user c.post cid f = (.redirected c.post, db) ∧
      commentDelete db user c.post cid = (.redirected c.post, db)) := by
  constructor
  · intro db user pid p f hp hu
    have hne : (p.author != user) = true := bne_iff_ne.mpr (Ne.symm hu)
    constructor
    · simp only [postUpdate, hp, hne, if_pos]
    · simp only [postDelete, hp, hne, if_pos]
  · intro db user cid c f hc hu
    have hne : (c.author != user) = true := bne_iff_ne.mpr (Ne.symm hu)
    constructor
    · simp only [commentUpdate, hc, hne, if_pos]
    · simp only [commentDelete, hc, hne, if_pos]

/-- C3 witness: bob (user 2) attempting to edit or delete alice's post
and comment is redirected to the detail pages and changes nothing. -/
theorem C3_nonauthor_write_refused_witness :
    (postUpdate dbEx 2 1 id = (WriteResult.redirected 1, dbEx) ∧
     postDelete dbEx 2 1 = (WriteResult.redirected 1, dbEx)) ∧
    (commentUpdate dbEx 2 cOnPCat.post 1 id =
       (WriteResult.redirected cOnPCat.post, dbEx) ∧
     commentDelete dbEx 2 cOnPCat.post 1 =
       (WriteResult.redirected cOnPCat.post, dbEx)) :=
  ⟨C3_nonauthor_write_refused.1 dbEx 2 1 pNoCat id (by decide) (by decide),
   C3_nonauthor_write_refused.2 dbEx 2 1 cOnPCat id (by decide) (by decide)⟩

/- ### C4: delete cascades and SET_NULL -/

/-- C4: deleting a post removes exactly its comments (the CASCADE on
`Comment.post`), and deleting a category keeps every post — the same
number of rows — replacing references to the deleted category by null
(the SET_NULL on `Post.category`). -/
theorem C4_delete_cascade_and_set_null :
    (∀ (db : DB) (pid : Nat) (c : Comment),
      c ∈ (deletePost db pid).comments ↔ c ∈ db.comments ∧ c.post ≠ pid) ∧
    (∀ (db : DB) (cid : Nat) (p : Post), p ∈ db.posts →
      (if p.category = some cid then { p with category := none } else p) ∈
        (deleteCategory db cid).posts) ∧
    (∀ (db : DB) (cid : Nat),
      ((deleteCategory db cid).posts).length = db.posts.length) := by
  refine ⟨?_, ?_, ?_⟩
  · intro db pid c
    simp [deletePost, List.mem_filter, bne_iff_ne]
  · intro db cid p hp
    simp only [deleteCategory, List.mem_map]
    refine ⟨p, hp, ?_⟩
    by_cases h : p.category = some cid
    · simp [h]
    · have hb : (p.category == some cid) = false := by
        simpa using h
      simp [h, hb]
  · intro db cid
    simp [deleteCategory]

/-- C4 witness: deleting post 2 removes the comment on it; deleting
category 7 keeps both posts and nulls the reference of `pCat`. -/
theorem C4_delete_cascade_and_set_null_witness :
    (cOnPCat ∈ (deletePost dbEx 2).comments ↔
      cOnPCat ∈ dbEx.comments ∧ cOnPCat.post ≠ 2) ∧
    ((if pCat.category = some 7 then { pCat with category := none }
      else pCat) ∈ (deleteCategory dbEx 7).posts) ∧
    ((deleteCategory dbEx 7).posts).length = dbEx.posts.length :=
  ⟨C4_delete_cascade_and_set_null.1 dbEx 2 cOnPCat,
   C4_delete_cascade_and_set_null.2.1 dbEx 7 pCat (by decide),
   C4_delete_cascade_and_set_null.2.2 dbEx 7⟩

/- ### C5: pagination clamping -/

/-- C5, corrected: `get_page` never errors — a page number above the
last page returns the last page's content, a missing or non-integer
page parameter returns the first page — but an integer page number
below 1 also returns the *last* page, not the nearest valid page
(which would be the first). -/
theorem C5_get_page_clamps :
    (∀ (α : Type) (l : List α) (pp : Nat) (n : Int),
      (num_pages l.length pp : Int) < n →
      get_page l pp (.num n) = pageSlice l pp (num_pages l.length pp)) ∧
    (∀ (α : Type) (l : List α) (pp : Nat) (n : Int),
      n < 1 →
      get_page l pp (.num n) = pageSlice l pp (num_pages l.length pp)) ∧
    (∀ (α : Type) (l : List α) (pp : Nat),
      get_page l pp .missing = pageSlice l pp 1) := by
  refine ⟨?_, ?_, ?_⟩
  · intro α l pp n hn
    have h1 : ¬ n < 1 := by
      intro h
      have : (0 : Int) ≤ (num_pages l.length pp : Int) := Int.natCast_nonneg _
      omega
    simp only [get_page, if_neg h1, if_pos hn]
  · intro α l pp n hn
    simp only [get_page, if_pos hn]
  · intro α l pp
    rfl

/-- C5 witness: with two one-item pages, page 5 and page 0 both return
the last page, and a missing parameter returns the first. -/
theorem C5_get_page_clamps_witness :
    get_page [10, 20] 1 (PageParam.num 5) =
      pageSlice [10, 20] 1 (num_pages ([10, 20] : List Nat).length 1) ∧
    get_page [10, 20] 1 (PageParam.num 0) =
      pageSlice [10, 20] 1 (num_pages ([10, 20] : List Nat).length 1) ∧
    get_page [10, 20] 1 PageParam.missing = pageSlice [10, 20] 1 1 :=
  ⟨C5_get_page_clamps.1 Nat [10, 20] 1 5 (by decide),
   C5_get_page_clamps.2.1 Nat [10, 20] 1 0 (by decide),
   C5_get_page_clamps.2.2 Nat [10, 20] 1⟩

/-- C5 counterexample: the list `[10, 20]` paginated one per page has
two pages; requesting page 0 — whose nearest valid page is page 1 with
content `[10]` — returns the last page's content `[20]`. -/
theorem C5_get_page_clamps_cex :
    num_pages ([10, 20] : List Nat).length 1 = 2 ∧
    get_page [10, 20] 1 (PageParam.num 0) = [20] ∧
    get_page [10, 20] 1 (PageParam.num 0) ≠ [10] := by decide

/- ### C6: category feed route -/

/-- C6, code bug: `blog/urls.py` binds the `category/<slug:category_slug>/`
route (URL name `category_posts`) to `views.CategoryListView`, but
`blog/views.py` defines no attribute of that name — its category view is
`CategoryDetailView` — so importing the URL configuration raises
`AttributeError` and the endpoint cannot serve the feed that the claim
(and the view logic, embedded here as `category_posts`) describes. -/
theorem C6_category_route_target_undefined :
    categoryRouteTarget ∉ blogViewsDefined := by decide

/- ### C7: comment-count annotation -/

/-- C7: in the home feed queryset and in both branches of the profile
feed, the `comment_count` annotation carried by each listed post equals
exactly the number of comment rows whose `post` foreign key references
it, recomputed from the comment table of the very database state being
queried. -/
theorem C7_comment_count_exact :
    (∀ (db : DB) (now : Int) (e : FeedEntry),
      e ∈ post_list_queryset db now →
      e.comment_count =
        (db.comments.filter (fun c => c.post == e.post.id)).length) ∧
    (∀ (db : DB) (now : Int) (vu un : String) (pp : Nat) (pg : PageParam)
       (entries : List FeedEntry) (e : FeedEntry),
      profile db now vu un pp pg = .page entries → e ∈ entries →
      e.comment_count =
        (db.comments.filter (fun c => c.post == e.post.id)).length) := by
  constructor
  · intro db now e he
    exact (mem_annotated_sorted.mp he).2.2
  · intro db now vu un pp pg entries e hprof he
    cases hfu : db.findUser un with
    | none => simp [profile, hfu] at hprof
    | some prof =>
      by_cases hown : un = vu
      · simp only [profile, hfu, if_pos hown, FeedResult.page.injEq] at hprof
        subst hprof
        exact (mem_annotated_sorted.mp (mem_of_mem_get_page he)).2.2
      · simp only [profile, hfu, if_neg hown, FeedResult.page.injEq] at hprof
        subst hprof
        exact (mem_annotated_sorted.mp (mem_of_mem_get_page he)).2.2

/-- C7 witness: on the example database the home feed lists `pCat` with
count 1, and alice's own profile feed lists `pNoCat` with count 0. -/
theorem C7_comment_count_exact_witness :
    (⟨pCat, 1⟩ : FeedEntry).comment_count =
      (dbEx.comments.filter
        (fun c => c.post == (⟨pCat, 1⟩ : FeedEntry).post.id)).length ∧
    (⟨pNoCat, 0⟩ : FeedEntry).comment_count =
      (dbEx.comments.filter
        (fun c => c.post == (⟨pNoCat, 0⟩ : FeedEntry).post.id)).length :=
  ⟨C7_comment_count_exact.1 dbEx 5 ⟨pCat, 1⟩ (by decide),
   C7_comment_count_exact.2 dbEx 5 "alice" "alice" 10 PageParam.missing
     [⟨pNoCat, 0⟩, ⟨pCat, 1⟩] ⟨pNoCat, 0⟩ (by decide) (by decide)⟩

/- ### C8: feeds ordered newest-first -/

/-- C8: every page served by the home feed, the profile feed (either
branch) and the category feed is ordered by `pub_date` descending. -/
theorem C8_feeds_ordered :
    (∀ (db : DB) (now : Int) (pp : Nat) (pg : PageParam),
      (post_list db now pp pg).Pairwise newerEq) ∧
    (∀ (db : DB) (now : Int) (vu un : String) (pp : Nat) (pg : PageParam)
       (entries : List FeedEntry),
      profile db now vu un pp pg = .page entries →
      entries.Pairwise newerEq) ∧
    (∀ (db : DB) (now : Int) (slug : String) (pp : Nat) (pg : PageParam)
       (entries : List FeedEntry),
      category_posts db now slug pp pg = .page entries →
      entries.Pairwise newerEq) := by
  refine ⟨?_, ?_, ?_⟩
  · intro db now pp pg
    exact pairwise_get_page pp pg (pairwise_sortDesc _)
  · intro db now vu un pp pg entries hprof
    cases hfu : db.findUser un with
    | none => simp [profile, hfu] at hprof
    | some prof =>
      by_cases hown : un = vu
      · simp only [profile, hfu, if_pos hown, FeedResult.page.injEq] at hprof
        subst hprof
        exact pairwise_get_page pp pg (pairwise_sortDesc _)
      · simp only [profile, hfu, if_neg hown, FeedResult.page.injEq] at hprof
        subst hprof
        exact pairwise_get_page pp pg (pairwise_sortDesc _)
  · intro db now slug pp pg entries hcat
    cases hfc : db.findCategoryBySlug slug with
    | none => simp [category_posts, hfc] at hcat
    | some cat =>
      by_cases hp : cat.is_published = false
      · simp [category_posts, hfc, if_pos hp] at hcat
      · simp only [category_posts, hfc, if_neg hp, FeedResult.page.injEq]
          at hcat
        subst hcat
        exact pairwise_get_page pp pg (pairwise_sortDesc _)

/-- C8 witness: concrete pages of the three feeds on the example
database are each in descending `pub_date` order. -/
theorem C8_feeds_ordered_witness :
    (post_list dbEx 5 10 PageParam.missing).Pairwise newerEq ∧
    ([⟨pNoCat, 0⟩, ⟨pCat, 1⟩] : List FeedEntry).Pairwise newerEq ∧
    ([⟨pCat, 1⟩] : List FeedEntry).Pairwise newerEq :=
  ⟨C8_feeds_ordered.1 dbEx 5 10 PageParam.missing,
   C8_feeds_ordered.2.1 dbEx 5 "alice" "alice" 10 PageParam.missing
     [⟨pNoCat, 0⟩, ⟨pCat, 1⟩] (by decide),
   C8_feeds_ordered.2.2 dbEx 5 "news" 10 PageParam.missing
     [⟨pCat, 1⟩] (by decide)⟩

/- ### C9: comment operations resolve by comment_id alone -/

/-- C9: the comment update and delete handlers fetch the target by
`comment_id` only — the database effect is identical under any `post_id`
URL segment — and the soft-denial redirect for a non-author goes to the
post-detail page of the URL's `post_id`, whatever the comment's actual
post is. -/
theorem C9_comment_ops_resolve_by_id :
    (∀ (db : DB) (user pid₁ pid₂ cid : Nat) (f : Comment → Comment),
      (commentUpdate db user pid₁ cid f).2 =
        (commentUpdate db user pid₂ cid f).2 ∧
      (commentDelete db user pid₁ cid).2 =
        (commentDelete db user pid₂ cid).2) ∧
    (∀ (db : DB) (user pid cid : Nat) (c : Comment) (f : Comment → Comment),
      db.findComment cid = some c → c.author ≠ user →
      commentUpdate db user pid cid f = (.redirected pid, db) ∧
      commentDelete db user pid cid = (.redirected pid, db)) := by
  constructor
  · intro db user pid₁ pid₂ cid f
    constructor
    · simp only [commentUpdate]
      cases db.findComment cid with
      | none => rfl
      | some inst => cases hb : inst.author != user <;> simp [hb]
    · simp only [commentDelete]
      cases db.findComment cid with
      | none => rfl
      | some inst => cases hb : inst.author != user <;> simp [hb]
  · intro db user pid cid c f hc hu
    have hne : (c.author != user) = true := bne_iff_ne.mpr hu
    constructor
    · simp only [commentUpdate, hc, hne, if_pos]
    · simp only [commentDelete, hc, hne, if_pos]

/-- C9 witness: alice's edit of her comment has the same database effect
under `post_id` 99 as under 5, and bob's denied attempt under
`post_id` 99 is redirected to post 99's detail page even though the
comment belongs to post 2. -/
theorem C9_comment_ops_resolve_by_id_witness :
    ((commentUpdate dbEx 1 99 1 id).2 = (commentUpdate dbEx 1 5 1 id).2 ∧
     (commentDelete dbEx 1 99 1).2 = (commentDelete dbEx 1 5 1).2) ∧
    (commentUpdate dbEx 2 99 1 id = (WriteResult.redirected 99, dbEx) ∧
     commentDelete dbEx 2 99 1 = (WriteResult.redirected 99, dbEx)) :=
  ⟨C9_comment_ops_resolve_by_id.1 dbEx 1 99 5 1 id,
   C9_comment_ops_resolve_by_id.2 dbEx 2 99 1 cOnPCat id
     (by decide) (by decide)⟩

/- ### C10: comment creation ignores visibility -/

/-- C10: for an authenticated user, creating a comment on any stored
post succeeds regardless of the post's publish flags, category state or
publication date — the new row's `author` is the requester and its
`post` is the addressed post — while a missing `post_id` yields
not-found and leaves the database unchanged. -/
theorem C10_comment_create_ignores_visibility :
    (∀ (db : DB) (user pid : Nat) (txt : String) (newId : Nat) (now : Int)
       (p : Post), db.findPost pid = some p →
      commentCreate db user pid txt newId now =
        (.created,
         { db with comments := db.comments ++ [⟨newId, txt, pid, user, now⟩] })) ∧
    (∀ (db : DB) (user pid : Nat) (txt : String) (newId : Nat) (now : Int),
      db.findPost pid = none →
      commentCreate db user pid txt newId now = (.notFound, db)) := by
  constructor
  · intro db user pid txt newId now p hp
    simp only [commentCreate, hp]
  · intro db user pid txt newId now hp
    simp only [commentCreate, hp]

/-- C10 witness: bob comments on `pNoCat` — a post that is future-dated
and categoryless, hence invisible to him — and the comment is stored
with him as author; commenting on the missing post 42 is not-found. -/
theorem C10_comment_create_ignores_visibility_witness :
    commentCreate dbEx 2 1 "hi" 9 0 =
      (CreateResult.created,
       { dbEx with comments := dbEx.comments ++ [⟨9, "hi", 1, 2, 0⟩] }) ∧
    commentCreate dbEx 2 42 "hi" 9 0 = (CreateResult.notFound, dbEx) :=
  ⟨C10_comment_create_ignores_visibility.1 dbEx 2 1 "hi" 9 0 pNoCat
     (by decide),
   C10_comment_create_ignores_visibility.2 dbEx 2 42 "hi" 9 0 (by decide)⟩

end Blogicum
